import Mathlib

/-!
Shallow embedding of `src/utils.ts`: authentication and expense CRUD helpers
for an expense-tracking application backed by a hosted identity service and a
document database (Firestore).  JavaScript numbers are modelled as rationals
extended with `NaN` and the two infinities; stored document fields are untyped
JavaScript values; the document database is a flat list of
`(uid, docId, document)` entries standing for the `users/{uid}/expenses`
collections.  Each operation returns its result together with the new store
and the list of network effects it issued.
-/

namespace Hw3

/-- JavaScript number: `NaN`, the two infinities, or a finite value
(modelled as a rational). -/
inductive JNum where
  | nan
  | inf
  | negInf
  | fin (q : Rat)
deriving DecidableEq

/-- The JavaScript `isNaN` test on a number. -/
def jnumIsNaN : JNum → Bool
  | .nan => true
  | _ => false

/-- The JavaScript `<` comparison on numbers: any comparison with `NaN` is
false; `-Infinity` is below everything else, `Infinity` above. -/
def jnumLt : JNum → JNum → Bool
  | .nan, _ => false
  | _, .nan => false
  | .negInf, .negInf => false
  | .negInf, _ => true
  | _, .negInf => false
  | .inf, _ => false
  | .fin _, .inf => true
  | .fin p, .fin q => decide (p < q)

/-- The JavaScript `String()` conversion of a number.  Exact on the special
values and on integers; the decimal formatting of non-integer rationals is
approximated (no claim in this development evaluates it). -/
def jnumToString : JNum → String
  | .nan => "NaN"
  | .inf => "Infinity"
  | .negInf => "-Infinity"
  | .fin q => if q.den = 1 then toString q.num else toString q

/-- The JavaScript `String.prototype.trim` operation: strips whitespace from
both ends of the string. -/
def jsTrim (s : String) : String :=
  ⟨((s.data.dropWhile Char.isWhitespace).reverse.dropWhile Char.isWhitespace).reverse⟩

/-- The JavaScript `Number()` conversion of a string.  Exact on the empty or
blank string (`0`), the `Infinity` spellings, and integer numerals; every
other string is sent to `NaN` (decimal fractions are not modelled; no claim
in this development evaluates them). -/
def jsStringToNumber (s : String) : JNum :=
  let t := jsTrim s
  if t = "" then .fin 0
  else if t = "Infinity" ∨ t = "+Infinity" then .inf
  else if t = "-Infinity" then .negInf
  else
    match t.toInt? with
    | some n => .fin n
    | none => .nan

/-- An untyped JavaScript value as it can sit in a stored document field:
string, number, boolean, `null` or `undefined`. -/
inductive JSVal where
  | vstr (s : String)
  | vnum (n : JNum)
  | vbool (b : Bool)
  | vnull
  | vundef
deriving DecidableEq

/-- The JavaScript `String()` conversion. -/
def jsString : JSVal → String
  | .vstr s => s
  | .vnum n => jnumToString n
  | .vbool b => if b then "true" else "false"
  | .vnull => "null"
  | .vundef => "undefined"

/-- The JavaScript `Number()` conversion. -/
def jsNumber : JSVal → JNum
  | .vstr s => jsStringToNumber s
  | .vnum n => n
  | .vbool b => .fin (if b then 1 else 0)
  | .vnull => .fin 0
  | .vundef => .nan

/-- JavaScript truthiness (`Boolean()`, `!!`). -/
def jsBool : JSVal → Bool
  | .vstr s => decide (s ≠ "")
  | .vnum n =>
    match n with
    | .nan => false
    | .fin q => decide (q ≠ 0)
    | _ => true
  | .vbool b => b
  | .vnull => false
  | .vundef => false

/-- The JavaScript nullish-coalescing operator `x ?? dflt` applied to a
possibly absent object property: an absent property reads as `undefined`, and
`??` substitutes the default for both `null` and `undefined`. -/
def nullishOr : Option JSVal → JSVal → JSVal
  | none, dflt => dflt
  | some .vnull, dflt => dflt
  | some .vundef, dflt => dflt
  | some v, _ => v

/-- The signed-in user as held by the identity service: opaque `uid` plus the
bearer token that `getIdToken` returns. -/
structure User where
  uid : String
  token : String
deriving DecidableEq

/-- The identity service's "current user" singleton (`auth.currentUser`). -/
structure AuthState where
  currentUser : Option User
deriving DecidableEq

/-- A credential as returned by the backend on account creation
(`createUserWithEmailAndPassword`): wraps the user record. -/
structure Cred where
  user : User
deriving DecidableEq

/-- An error raised by the identity backend: a message plus the backend's
error code (`e.message`, `e.code`). -/
structure AuthErr where
  message : String
  code : Option String
deriving DecidableEq

/-- Errors raised by the access layer, following the spec's taxonomy:
`notSignedIn` models `new Error("Not signed in")` from `requireUid`;
`validation` models the input-validation errors of `addExpense`;
`unauthorized` models `new Error("Unauthorized")` from `authedFetch`;
`firestoreError` models a failure of the document database itself (for
example `updateDoc` on a document that does not exist). -/
inductive Err where
  | notSignedIn
  | validation (message : String)
  | unauthorized
  | firestoreError (message : String)
deriving DecidableEq

/-- A stored expense document: each field is an untyped JavaScript value and
may be absent (`none`).  `createdAt` holds the server-assigned timestamp. -/
structure StoredDoc where
  description : Option JSVal
  date : Option JSVal
  cost : Option JSVal
  deleted : Option JSVal
  createdAt : Option Nat
deriving DecidableEq

/-- One document of the database: its collection is `users/{uid}/expenses`,
its identifier is `docId`. -/
structure Entry where
  uid : String
  docId : String
  data : StoredDoc
deriving DecidableEq

/-- The document database, together with the backend-assigned fresh-id
counter and the server clock used for `serverTimestamp()`. -/
structure DB where
  entries : List Entry
  nextId : Nat
  now : Nat
deriving DecidableEq

/-- A network call issued by a CRUD operation: a collection query
(`getDocs`), a document creation (`addDoc`) or a document update
(`updateDoc`). -/
inductive NetEffect where
  | queryDocs (uid : String)
  | addDocW (uid : String)
  | updateDocW (uid : String) (docId : String)
deriving DecidableEq

/-- The typed expense record that `fetchExpenses` returns to callers. -/
structure Expense where
  id : String
  description : String
  date : String
  cost : JNum
  deleted : Bool
deriving DecidableEq

/-- Outcome of a CRUD operation: the result or error, the database after the
call, and the network calls issued. -/
structure CrudOut (α : Type) where
  result : Except Err α
  db : DB
  net : List NetEffect

deriving instance DecidableEq for Except

deriving instance DecidableEq for CrudOut

/-- Embeds `requireUid`: reads `auth.currentUser?.uid` and throws
`Error("Not signed in")` when it is falsy (no user, or an empty-string
uid). -/
def requireUid (auth : AuthState) : Except Err String :=
  match auth.currentUser with
  | some u => if u.uid = "" then .error .notSignedIn else .ok u.uid
  | none => .error .notSignedIn

/-- Embeds `getIdToken`: the current user's bearer token, or `none` when
unauthenticated (`forceRefresh` only controls reissuance and does not change
the value in this model). -/
def getIdToken (auth : AuthState) (_forceRefresh : Bool) : Option String :=
  match auth.currentUser with
  | none => none
  | some u => some u.token

/-- Document lookup key: the entry sits in `users/{uid}/expenses` under
`docId`. -/
def matchDoc (uid id : String) (e : Entry) : Bool :=
  decide (e.uid = uid ∧ e.docId = id)

/-- Direct read of document `id` in `users/{uid}/expenses`. -/
def getDoc (db : DB) (uid id : String) : Option StoredDoc :=
  (db.entries.find? (matchDoc uid id)).map Entry.data

/-- The filter of the `fetchExpenses` query: entries of the identity's
collection whose `deleted` field is present and equal to `false`
(Firestore's `where("deleted", "==", false)`). -/
def liveFor (uid : String) (e : Entry) : Bool :=
  decide (e.uid = uid ∧ e.data.deleted = some (JSVal.vbool false))

/-- The ordering key of `orderBy("date", "desc")`: the stored `date` value
read as a string (the module only ever writes string dates, and this equals
the coerced `date` of the returned record). -/
def dateKey (e : Entry) : String :=
  jsString (nullishOr e.data.date (JSVal.vstr ""))

/-- Entry `a` may precede entry `b` in a date-descending listing. -/
def dateDescOrder (a b : Entry) : Prop :=
  dateKey b ≤ dateKey a

instance : DecidableRel dateDescOrder :=
  fun a b => inferInstanceAs (Decidable (dateKey b ≤ dateKey a))

instance : IsTotal Entry dateDescOrder :=
  ⟨fun a b => le_total (dateKey b) (dateKey a)⟩

instance : IsTrans Entry dateDescOrder :=
  ⟨fun _ _ _ hab hbc => le_trans hbc hab⟩

/-- Embeds the result-shaping of `fetchExpenses`: each field of the snapshot
document is coerced to its declared type, with the defaults `""`, `""`, `0`,
`false` substituted by `??` when the stored field is absent or `null`. -/
def toExpense (e : Entry) : Expense :=
  { id := e.docId
    description := jsString (nullishOr e.data.description (JSVal.vstr ""))
    date := jsString (nullishOr e.data.date (JSVal.vstr ""))
    cost := jsNumber (nullishOr e.data.cost (JSVal.vnum (JNum.fin 0)))
    deleted := jsBool (nullishOr e.data.deleted (JSVal.vbool false)) }

/-- Embeds `fetchExpenses`: requires a uid, queries the identity's collection
for non-deleted documents ordered by date descending, and maps each document
through the field coercions. -/
def fetchExpenses (auth : AuthState) (db : DB) : CrudOut (List Expense) :=
  match requireUid auth with
  | .error e => ⟨.error e, db, []⟩
  | .ok uid =>
    let hits := (db.entries.filter (liveFor uid)).insertionSort dateDescOrder
    ⟨.ok (hits.map toExpense), db, [.queryDocs uid]⟩

/-- The caller-supplied argument of `addExpense` (`Omit<Expense, "id">`):
description, date, cost and deleted, carrying the declared TypeScript
types. -/
structure AddInput where
  description : String
  date : String
  cost : JNum
  deleted : Bool
deriving DecidableEq

/-- Embeds `addExpense`: requires a uid; rejects a falsy (empty) description
and a `NaN` or negative cost; then persists a new document with the trimmed
description, the date as a string, the numeric cost, `deleted = false` and a
server-assigned creation timestamp.  The document id is backend-assigned and
not returned. -/
def addExpense (auth : AuthState) (db : DB) (expense : AddInput) : CrudOut Unit :=
  match requireUid auth with
  | .error e => ⟨.error e, db, []⟩
  | .ok uid =>
    if expense.description = "" then
      ⟨.error (.validation "Description is required"), db, []⟩
    else if jnumIsNaN expense.cost ∨ jnumLt expense.cost (JNum.fin 0) then
      ⟨.error (.validation "Enter a valid non-negative cost"), db, []⟩
    else
      let payload : StoredDoc :=
        { description := some (JSVal.vstr (jsTrim expense.description))
          date := some (JSVal.vstr expense.date)
          cost := some (JSVal.vnum expense.cost)
          deleted := some (JSVal.vbool false)
          createdAt := some db.now }
      ⟨.ok (), ⟨db.entries ++ [⟨uid, toString db.nextId, payload⟩], db.nextId + 1, db.now⟩,
        [.addDocW uid]⟩

/-- The caller-supplied partial update of `updateExpense`
(`Partial<Expense> | TempEdit`): each field may be absent, and a present
field may hold any JavaScript value.  `none` models an absent (or
`undefined`) property. -/
structure UpdateInput where
  description : Option JSVal
  date : Option JSVal
  cost : Option JSVal
  deleted : Option JSVal
deriving DecidableEq

/-- Embeds the body construction and `updateDoc` application of
`updateExpense`: a field enters the update body only when it is not
`undefined`; `description` and `date` are stored as given, `cost` through
`Number()` and `deleted` through `!!`; every other field of the document is
left unchanged. -/
def applyUpdate (d : StoredDoc) (next : UpdateInput) : StoredDoc :=
  { description :=
      match next.description with
      | some .vundef => d.description
      | some v => some v
      | none => d.description
    date :=
      match next.date with
      | some .vundef => d.date
      | some v => some v
      | none => d.date
    cost :=
      match next.cost with
      | some .vundef => d.cost
      | some v => some (JSVal.vnum (jsNumber v))
      | none => d.cost
    deleted :=
      match next.deleted with
      | some .vundef => d.deleted
      | some v => some (JSVal.vbool (jsBool v))
      | none => d.deleted
    createdAt := d.createdAt }

/-- Embeds `updateExpense`: requires a uid, builds the partial update body
and applies it with `updateDoc` to `users/{uid}/expenses/{id}`; `updateDoc`
fails when the document does not exist. -/
def updateExpense (auth : AuthState) (db : DB) (id : String) (next : UpdateInput) :
    CrudOut Unit :=
  match requireUid auth with
  | .error e => ⟨.error e, db, []⟩
  | .ok uid =>
    if db.entries.any (matchDoc uid id) then
      ⟨.ok (),
        ⟨db.entries.map (fun e => if matchDoc uid id e then ⟨e.uid, e.docId, applyUpdate e.data next⟩ else e),
          db.nextId, db.now⟩,
        [.updateDocW uid id]⟩
    else
      ⟨.error (.firestoreError "No document to update"), db, [.updateDocW uid id]⟩

/-- Embeds `deleteExpense`: requires a uid and applies
`updateDoc(ref, { deleted: true })` to `users/{uid}/expenses/{id}` — a soft
delete that flips the flag and removes nothing. -/
def deleteExpense (auth : AuthState) (db : DB) (id : String) : CrudOut Unit :=
  match requireUid auth with
  | .error e => ⟨.error e, db, []⟩
  | .ok uid =>
    if db.entries.any (matchDoc uid id) then
      ⟨.ok (),
        ⟨db.entries.map (fun e => if matchDoc uid id e then ⟨e.uid, e.docId, { e.data with deleted := some (JSVal.vbool true) }⟩ else e),
          db.nextId, db.now⟩,
        [.updateDocW uid id]⟩
    else
      ⟨.error (.firestoreError "No document to update"), db, [.updateDocW uid id]⟩

/-- An HTTP response as seen by `authedFetch`: its status code and body. -/
structure HttpResponse where
  status : Nat
  body : String
deriving DecidableEq

/-- The `Headers.set` operation: replaces any existing header of that name. -/
def setHeader (hs : List (String × String)) (k v : String) : List (String × String) :=
  hs.filter (fun p => decide (p.1 ≠ k)) ++ [(k, v)]

/-- The headers `authedFetch` sends: the caller's headers with
`Authorization: Bearer <token>` set when a token is available. -/
def authedFetchHeaders (auth : AuthState) (initHeaders : List (String × String)) :
    List (String × String) :=
  match getIdToken auth false with
  | some t => setHeader initHeaders "Authorization" ("Bearer " ++ t)
  | none => initHeaders

/-- Outcome of `authedFetch`: the response or error, the navigation
redirects issued (`window.location.assign`), and the headers sent. -/
structure FetchOut where
  result : Except Err HttpResponse
  redirects : List String
  sentHeaders : List (String × String)
deriving DecidableEq

/-- Embeds `authedFetch`: attaches the bearer header and issues the request;
`res` is the response the environment returns.  On status 401 it redirects
the browsing context to `/signin` and throws `Error("Unauthorized")`;
otherwise it returns the response. -/
def authedFetch (auth : AuthState) (initHeaders : List (String × String))
    (res : HttpResponse) : FetchOut :=
  if res.status = 401 then
    ⟨.error .unauthorized, ["/signin"], authedFetchHeaders auth initHeaders⟩
  else
    ⟨.ok res, [], authedFetchHeaders auth initHeaders⟩

/-- Embeds `signUp`: `backendResult` is what
`createUserWithEmailAndPassword` produces — a credential, or a coded backend
error.  A backend error is rethrown unchanged by the `catch`; on success the
user record is returned, after seeding demo data when running on localhost
with seeding enabled (the boolean of the pair records whether
`seedExpensesIfEmpty` ran). -/
def signUp (backendResult : Except AuthErr Cred) (isLocal : Bool) (seed : Bool) :
    Except AuthErr User × Bool :=
  match backendResult with
  | .error e => (.error e, false)
  | .ok cred => (.ok cred.user, isLocal && seed)

/-- A sample signed-in user. -/
def u1 : User := ⟨"u1", "tok1"⟩

/-- A sample signed-in authentication state. -/
def authU1 : AuthState := ⟨some u1⟩

/-- The signed-out authentication state. -/
def authNone : AuthState := ⟨none⟩

/-- An empty database. -/
def emptyDB : DB := ⟨[], 0, 0⟩

/-- A database holding one live document of `u1` whose `description` and
`cost` fields are malformed: both hold the boolean `true` instead of a
string and a number. -/
def dbMal : DB :=
  ⟨[⟨"u1", "d1", ⟨some (JSVal.vbool true), some (JSVal.vstr "2024-01-01"),
      some (JSVal.vbool true), some (JSVal.vbool false), none⟩⟩], 1, 0⟩

/-- A database holding one well-typed live document of `u1`. -/
def dbOne : DB :=
  ⟨[⟨"u1", "d1", ⟨some (JSVal.vstr "coffee"), some (JSVal.vstr "2024-01-01"),
      some (JSVal.vnum (JNum.fin 4)), some (JSVal.vbool false), some 7⟩⟩], 1, 9⟩

theorem requireUid_of_some {auth : AuthState} {u : User} (hu : auth.currentUser = some u)
    (hne : u.uid ≠ "") : requireUid auth = .ok u.uid := by
  simp [requireUid, hu, hne]

theorem requireUid_of_none {auth : AuthState} (h : auth.currentUser = none) :
    requireUid auth = .error .notSignedIn := by
  simp [requireUid, h]

theorem matchDoc_map_update (uid id uid' id' : String) (g : StoredDoc → StoredDoc)
    (e : Entry) :
    matchDoc uid' id' (if matchDoc uid id e then ⟨e.uid, e.docId, g e.data⟩ else e) =
      matchDoc uid' id' e := by
  by_cases h : e.uid = uid ∧ e.docId = id
  · simp [matchDoc, h]
  · simp [matchDoc, h]

theorem find?_map_pres {p : Entry → Bool} {f : Entry → Entry}
    (hp : ∀ e, p (f e) = p e) :
    ∀ l : List Entry, (l.map f).find? p = (l.find? p).map f := by
  intro l
  induction l with
  | nil => rfl
  | cons a t ih =>
    by_cases h : p a = true
    · rw [List.map_cons, List.find?_cons_of_pos _ (show p (f a) from (hp a).trans h),
        List.find?_cons_of_pos _ (show p a from h), Option.map_some']
    · rw [List.map_cons,
        List.find?_cons_of_neg _ (show ¬p (f a) by rw [hp a]; simpa using h),
        List.find?_cons_of_neg _ (show ¬p a by simpa using h), ih]

theorem any_of_getDoc {db : DB} {uid id : String} {d : StoredDoc}
    (hd : getDoc db uid id = some d) : db.entries.any (matchDoc uid id) = true := by
  rcases Option.map_eq_some'.mp hd with ⟨e0, he0, _⟩
  exact List.any_eq_true.mpr ⟨e0, List.mem_of_find?_eq_some he0, List.find?_some he0⟩

theorem getDoc_map_self {db : DB} {uid id : String} {d : StoredDoc}
    (g : StoredDoc → StoredDoc) (n w : Nat) (hd : getDoc db uid id = some d) :
    getDoc ⟨db.entries.map
        (fun e => if matchDoc uid id e then ⟨e.uid, e.docId, g e.data⟩ else e), n, w⟩
      uid id = some (g d) := by
  rcases Option.map_eq_some'.mp hd with ⟨e0, he0, hdata⟩
  have hp := List.find?_some he0
  unfold getDoc at *
  rw [show (DB.mk (db.entries.map
      (fun e => if matchDoc uid id e then ⟨e.uid, e.docId, g e.data⟩ else e)) n w).entries =
      db.entries.map (fun e => if matchDoc uid id e then ⟨e.uid, e.docId, g e.data⟩ else e)
      from rfl,
    find?_map_pres (matchDoc_map_update uid id uid id g), he0]
  simp [hp, ← hdata]

theorem getDoc_map_other {db : DB} {uid id : String} (uid' id' : String)
    (g : StoredDoc → StoredDoc) (n w : Nat) (h : uid' ≠ uid ∨ id' ≠ id) :
    getDoc ⟨db.entries.map
        (fun e => if matchDoc uid id e then ⟨e.uid, e.docId, g e.data⟩ else e), n, w⟩
      uid' id' = getDoc db uid' id' := by
  unfold getDoc
  rw [show (DB.mk (db.entries.map
      (fun e => if matchDoc uid id e then ⟨e.uid, e.docId, g e.data⟩ else e)) n w).entries =
      db.entries.map (fun e => if matchDoc uid id e then ⟨e.uid, e.docId, g e.data⟩ else e)
      from rfl,
    find?_map_pres (matchDoc_map_update uid id uid' id' g)]
  cases he : db.entries.find? (matchDoc uid' id') with
  | none => rfl
  | some e0 =>
    have hp := List.find?_some he
    have hm : matchDoc uid id e0 = false := by
      rcases of_decide_eq_true hp with ⟨h1, h2⟩
      apply decide_eq_false
      rintro ⟨g1, g2⟩
      rcases h with hh | hh
      · exact hh (h1 ▸ g1.symm ▸ rfl)
      · exact hh (h2 ▸ g2.symm ▸ rfl)
    simp [hm]

/-- C1: while unauthenticated, each of the four CRUD operations fails with
`NotSignedIn`, leaves the database untouched and issues no network call. -/
theorem crud_requires_uid (auth : AuthState) (db : DB) (id : String)
    (e : AddInput) (next : UpdateInput) (h : auth.currentUser = none) :
    fetchExpenses auth db = ⟨.error .notSignedIn, db, []⟩ ∧
    addExpense auth db e = ⟨.error .notSignedIn, db, []⟩ ∧
    updateExpense auth db id next = ⟨.error .notSignedIn, db, []⟩ ∧
    deleteExpense auth db id = ⟨.error .notSignedIn, db, []⟩ := by
  have hr := requireUid_of_none h
  refine ⟨?_, ?_, ?_, ?_⟩ <;>
    simp [fetchExpenses, addExpense, updateExpense, deleteExpense, hr]

theorem crud_requires_uid_witness :
    fetchExpenses authNone dbOne = ⟨.error .notSignedIn, dbOne, []⟩ ∧
    addExpense authNone dbOne ⟨"coffee", "2024-01-01", .fin 4, false⟩ =
      ⟨.error .notSignedIn, dbOne, []⟩ ∧
    updateExpense authNone dbOne "d1" ⟨none, none, none, none⟩ =
      ⟨.error .notSignedIn, dbOne, []⟩ ∧
    deleteExpense authNone dbOne "d1" = ⟨.error .notSignedIn, dbOne, []⟩ :=
  crud_requires_uid authNone dbOne "d1" ⟨"coffee", "2024-01-01", .fin 4, false⟩
    ⟨none, none, none, none⟩ rfl

/-- C7: when the response has status 401, `authedFetch` fails with
`Unauthorized` and issues exactly one redirect, to `/signin`; for any other
status it returns the response and issues no redirect. -/
theorem authedFetch_unauthorized_redirect (auth : AuthState)
    (hs : List (String × String)) (res : HttpResponse) :
    (res.status = 401 →
      authedFetch auth hs res =
        ⟨.error .unauthorized, ["/signin"], authedFetchHeaders auth hs⟩) ∧
    (res.status ≠ 401 →
      authedFetch auth hs res = ⟨.ok res, [], authedFetchHeaders auth hs⟩) := by
  constructor <;> intro h <;> simp [authedFetch, h]

theorem authedFetch_unauthorized_redirect_witness :
    authedFetch authU1 [] ⟨401, "denied"⟩ =
      ⟨.error .unauthorized, ["/signin"], authedFetchHeaders authU1 []⟩ ∧
    authedFetch authU1 [] ⟨200, "ok"⟩ =
      ⟨.ok ⟨200, "ok"⟩, [], authedFetchHeaders authU1 []⟩ :=
  ⟨(authedFetch_unauthorized_redirect authU1 [] ⟨401, "denied"⟩).1 rfl,
    (authedFetch_unauthorized_redirect authU1 [] ⟨200, "ok"⟩).2 (by decide)⟩

/-- C8: when the backend rejects account creation, `signUp` fails with the
backend's error, message and code preserved; on success it returns the
created identity record. -/
theorem signUp_error_code_preserved (e : AuthErr) (c : Cred) (isLocal seed : Bool) :
    (signUp (.error e) isLocal seed).1 = .error ⟨e.message, e.code⟩ ∧
    (signUp (.ok c) isLocal seed).1 = .ok c.user :=
  ⟨rfl, rfl⟩

theorem fetchExpenses_result {auth : AuthState} {u : User} (db : DB)
    (hu : auth.currentUser = some u) (hne : u.uid ≠ "") :
    fetchExpenses auth db =
      ⟨.ok (((db.entries.filter (liveFor u.uid)).insertionSort dateDescOrder).map toExpense),
        db, [.queryDocs u.uid]⟩ := by
  have hr := requireUid_of_some hu hne
  simp [fetchExpenses, hr]

theorem fetchExpenses_excludes {auth : AuthState} {u : User} {db : DB} {id : String}
    (hu : auth.currentUser = some u) (hne : u.uid ≠ "")
    (hdead : ∀ e ∈ db.entries, e.uid = u.uid → e.docId = id →
      e.data.deleted ≠ some (JSVal.vbool false)) :
    ∀ l, (fetchExpenses auth db).result = .ok l → ∀ x ∈ l, x.id ≠ id := by
  intro l hl x hx hxid
  rw [fetchExpenses_result db hu hne] at hl
  rw [← Except.ok.inj hl] at hx
  obtain ⟨e, he, hex⟩ := List.mem_map.mp hx
  obtain ⟨hmem, hlive⟩ := List.mem_filter.mp ((List.mem_insertionSort _).mp he)
  obtain ⟨hu1, hd1⟩ := of_decide_eq_true hlive
  have hid : e.docId = id := by
    rw [← hex] at hxid
    simpa [toExpense] using hxid
  exact hdead e hmem hu1 hid hd1

/-- C5: while signed in, `deleteExpense` on an existing record succeeds,
removes nothing from storage (the entry count is unchanged and a direct read
of the id still returns the record), sets the record's `deleted` flag to
`true` while leaving every other field intact, and a subsequent
`fetchExpenses` excludes the record from its result. -/
theorem deleteExpense_soft_delete (auth : AuthState) (u : User) (db : DB)
    (id : String) (d : StoredDoc) (hu : auth.currentUser = some u)
    (hne : u.uid ≠ "") (hd : getDoc db u.uid id = some d) :
    (deleteExpense auth db id).result = .ok () ∧
    (deleteExpense auth db id).db.entries.length = db.entries.length ∧
    getDoc (deleteExpense auth db id).db u.uid id =
      some ⟨d.description, d.date, d.cost, some (JSVal.vbool true), d.createdAt⟩ ∧
    ∀ l, (fetchExpenses auth (deleteExpense auth db id).db).result = .ok l →
      ∀ x ∈ l, x.id ≠ id := by
  have hr := requireUid_of_some hu hne
  have hany := any_of_getDoc hd
  have hdel : deleteExpense auth db id =
      ⟨.ok (), ⟨db.entries.map (fun e =>
          if matchDoc u.uid id e then
            ⟨e.uid, e.docId, { e.data with deleted := some (JSVal.vbool true) }⟩
          else e),
        db.nextId, db.now⟩, [.updateDocW u.uid id]⟩ := by
    simp [deleteExpense, hr, hany]
  refine ⟨by rw [hdel], by rw [hdel]; exact List.length_map _ _, ?_, ?_⟩
  · rw [hdel]
    exact getDoc_map_self (fun x => { x with deleted := some (JSVal.vbool true) })
      db.nextId db.now hd
  · rw [hdel]
    apply fetchExpenses_excludes hu hne
    intro e hmem hu1 hid1
    obtain ⟨e₁, _, hfe₁⟩ := List.mem_map.mp hmem
    by_cases hm : e₁.uid = u.uid ∧ e₁.docId = id
    · have hmt : matchDoc u.uid id e₁ = true := decide_eq_true hm
      rw [← hfe₁]
      simp [hmt]
    · have hmf : matchDoc u.uid id e₁ = false := decide_eq_false hm
      simp [hmf] at hfe₁
      exact absurd ⟨by rw [hfe₁]; exact hu1, by rw [hfe₁]; exact hid1⟩ hm

theorem deleteExpense_soft_delete_witness :
    (deleteExpense authU1 dbOne "d1").result = .ok () ∧
    (deleteExpense authU1 dbOne "d1").db.entries.length = dbOne.entries.length ∧
    getDoc (deleteExpense authU1 dbOne "d1").db u1.uid "d1" =
      some ⟨(⟨some (JSVal.vstr "coffee"), some (JSVal.vstr "2024-01-01"),
          some (JSVal.vnum (JNum.fin 4)), some (JSVal.vbool false), some 7⟩ : StoredDoc).description,
        (⟨some (JSVal.vstr "coffee"), some (JSVal.vstr "2024-01-01"),
          some (JSVal.vnum (JNum.fin 4)), some (JSVal.vbool false), some 7⟩ : StoredDoc).date,
        (⟨some (JSVal.vstr "coffee"), some (JSVal.vstr "2024-01-01"),
          some (JSVal.vnum (JNum.fin 4)), some (JSVal.vbool false), some 7⟩ : StoredDoc).cost,
        some (JSVal.vbool true),
        (⟨some (JSVal.vstr "coffee"), some (JSVal.vstr "2024-01-01"),
          some (JSVal.vnum (JNum.fin 4)), some (JSVal.vbool false), some 7⟩ : StoredDoc).createdAt⟩ ∧
    ∀ l, (fetchExpenses authU1 (deleteExpense authU1 dbOne "d1").db).result = .ok l →
      ∀ x ∈ l, x.id ≠ "d1" :=
  deleteExpense_soft_delete authU1 u1 dbOne "d1"
    ⟨some (JSVal.vstr "coffee"), some (JSVal.vstr "2024-01-01"),
      some (JSVal.vnum (JNum.fin 4)), some (JSVal.vbool false), some 7⟩
    rfl (by decide) (by decide)

/-- C4 counterexample: a stored document whose `description` and `cost`
fields hold the boolean `true` (present but malformed) is returned by
`fetchExpenses` with `description = "true"` and `cost = 1` — the declared
defaults `""` and `0` are not substituted for malformed fields, only for
absent or null ones. -/
theorem fetchExpenses_malformed_field_coerced :
    (fetchExpenses authU1 dbMal).result =
      .ok [⟨"d1", "true", "2024-01-01", JNum.fin 1, false⟩] ∧
    ("true" ≠ "" ∧ JNum.fin 1 ≠ JNum.fin 0) := by
  constructor
  · decide
  · decide

/-- C4 (amended): while signed in, `fetchExpenses` returns exactly the
records of the current identity whose stored `deleted` field equals `false`,
ordered by date descending, coerced field-by-field with the defaults `""`,
`0`, `false` substituted when a stored field is absent or null (a malformed
present field is converted by `String`/`Number`/`Boolean` instead); an
identity with zero records gets an empty collection, not an error. -/
theorem fetchExpenses_filters_sorts_coerces (auth : AuthState) (u : User) (db : DB)
    (hu : auth.currentUser = some u) (hne : u.uid ≠ "") :
    ∃ es : List Entry,
      List.Perm es (db.entries.filter (liveFor u.uid)) ∧
      fetchExpenses auth db = ⟨.ok (es.map toExpense), db, [.queryDocs u.uid]⟩ ∧
      List.Sorted (fun a b : Expense => b.date ≤ a.date) (es.map toExpense) ∧
      (db.entries.filter (fun e => decide (e.uid = u.uid)) = [] →
        es.map toExpense = []) := by
  refine ⟨(db.entries.filter (liveFor u.uid)).insertionSort dateDescOrder,
    List.perm_insertionSort _ _, fetchExpenses_result db hu hne, ?_, ?_⟩
  · exact List.Pairwise.map toExpense (fun a b h => h)
      (List.sorted_insertionSort dateDescOrder (db.entries.filter (liveFor u.uid)))
  · intro hempty
    have hnil : db.entries.filter (liveFor u.uid) = [] := by
      rw [List.filter_eq_nil_iff] at hempty ⊢
      intro e he hl
      obtain ⟨h1, _⟩ := of_decide_eq_true hl
      exact hempty e he (decide_eq_true h1)
    rw [hnil]
    rfl

theorem fetchExpenses_filters_sorts_coerces_witness :
    ∃ es : List Entry,
      List.Perm es (dbOne.entries.filter (liveFor u1.uid)) ∧
      fetchExpenses authU1 dbOne = ⟨.ok (es.map toExpense), dbOne, [.queryDocs u1.uid]⟩ ∧
      List.Sorted (fun a b : Expense => b.date ≤ a.date) (es.map toExpense) ∧
      (dbOne.entries.filter (fun e => decide (e.uid = u1.uid)) = [] →
        es.map toExpense = []) :=
  fetchExpenses_filters_sorts_coerces authU1 u1 dbOne rfl (by decide)

/-- C2 counterexample: a cost of `Infinity` is not a finite number ≥ 0, yet
`addExpense` accepts it — the call succeeds and a document is written — so
the cost check does not reject every non-finite cost. -/
theorem addExpense_accepts_infinite_cost :
    addExpense authU1 emptyDB ⟨"x", "2024-01-01", .inf, false⟩ =
      ⟨.ok (), ⟨[⟨"u1", "0", ⟨some (JSVal.vstr "x"), some (JSVal.vstr "2024-01-01"),
        some (JSVal.vnum JNum.inf), some (JSVal.vbool false), some 0⟩⟩], 1, 0⟩,
        [.addDocW "u1"]⟩ ∧
    (addExpense authU1 emptyDB ⟨"x", "2024-01-01", .inf, false⟩).db ≠ emptyDB := by
  constructor
  · decide
  · decide

/-- C2 (amended): while signed in, an expense whose cost is `NaN`
(non-numeric) or negative fails with `ValidationError` and performs no
write; a non-finite positive cost (`Infinity`), however, passes the check. -/
theorem addExpense_rejects_nan_or_negative_cost (auth : AuthState) (u : User)
    (db : DB) (e : AddInput) (hu : auth.currentUser = some u) (hne : u.uid ≠ "")
    (hc : jnumIsNaN e.cost = true ∨ jnumLt e.cost (JNum.fin 0) = true) :
    ∃ msg, addExpense auth db e = ⟨.error (.validation msg), db, []⟩ := by
  have hr := requireUid_of_some hu hne
  by_cases hd : e.description = ""
  · exact ⟨"Description is required", by simp [addExpense, hr, hd]⟩
  · refine ⟨"Enter a valid non-negative cost", ?_⟩
    have hcond : jnumIsNaN e.cost ∨ jnumLt e.cost (JNum.fin 0) := by
      rcases hc with h | h
      · exact Or.inl h
      · exact Or.inr h
    simp [addExpense, hr, hd, hcond]

theorem addExpense_rejects_nan_or_negative_cost_witness :
    ∃ msg, addExpense authU1 emptyDB ⟨"x", "2024-01-01", .fin (-1), false⟩ =
      ⟨.error (.validation msg), emptyDB, []⟩ :=
  addExpense_rejects_nan_or_negative_cost authU1 u1 emptyDB
    ⟨"x", "2024-01-01", .fin (-1), false⟩ rfl (by decide) (Or.inr (by decide))

/-- C3: while signed in, an empty description fails with `ValidationError`
and performs no write; an accepted input is persisted with the description
trimmed of surrounding whitespace and with `deleted = false`. -/
theorem addExpense_description_validation (auth : AuthState) (u : User)
    (db : DB) (e : AddInput) (hu : auth.currentUser = some u) (hne : u.uid ≠ "") :
    (e.description = "" →
      addExpense auth db e = ⟨.error (.validation "Description is required"), db, []⟩) ∧
    (e.description ≠ "" →
      ¬(jnumIsNaN e.cost = true ∨ jnumLt e.cost (JNum.fin 0) = true) →
      addExpense auth db e =
        ⟨.ok (), ⟨db.entries ++ [⟨u.uid, toString db.nextId,
            ⟨some (JSVal.vstr (jsTrim e.description)), some (JSVal.vstr e.date),
              some (JSVal.vnum e.cost), some (JSVal.vbool false), some db.now⟩⟩],
          db.nextId + 1, db.now⟩, [.addDocW u.uid]⟩) := by
  have hr := requireUid_of_some hu hne
  constructor
  · intro hd
    simp [addExpense, hr, hd]
  · intro hd hc
    have h1 : jnumIsNaN e.cost = false := by
      cases h : jnumIsNaN e.cost
      · rfl
      · exact absurd (Or.inl h) hc
    have h2 : jnumLt e.cost (JNum.fin 0) = false := by
      cases h : jnumLt e.cost (JNum.fin 0)
      · rfl
      · exact absurd (Or.inr h) hc
    simp [addExpense, hr, hd, h1, h2]

theorem addExpense_description_validation_witness :
    addExpense authU1 emptyDB ⟨"", "2024-01-01", .fin 4, false⟩ =
      ⟨.error (.validation "Description is required"), emptyDB, []⟩ ∧
    addExpense authU1 emptyDB ⟨" tea ", "2024-01-01", .fin 4, false⟩ =
      ⟨.ok (), ⟨[⟨"u1", "0", ⟨some (JSVal.vstr "tea"), some (JSVal.vstr "2024-01-01"),
          some (JSVal.vnum (JNum.fin 4)), some (JSVal.vbool false), some 0⟩⟩], 1, 0⟩,
        [.addDocW "u1"]⟩ :=
  ⟨(addExpense_description_validation authU1 u1 emptyDB
      ⟨"", "2024-01-01", .fin 4, false⟩ rfl (by decide)).1 rfl,
    by
      have h := (addExpense_description_validation authU1 u1 emptyDB
        ⟨" tea ", "2024-01-01", .fin 4, false⟩ rfl (by decide)).2 (by decide) (by decide)
      rw [h]
      decide⟩

theorem applyUpdate_description_some {d : StoredDoc} {next : UpdateInput} {v : JSVal}
    (h : next.description = some v) (hv : v ≠ .vundef) :
    (applyUpdate d next).description = some v := by
  cases v
  case vundef => exact absurd rfl hv
  all_goals simp [applyUpdate, h]

theorem applyUpdate_date_some {d : StoredDoc} {next : UpdateInput} {v : JSVal}
    (h : next.date = some v) (hv : v ≠ .vundef) :
    (applyUpdate d next).date = some v := by
  cases v
  case vundef => exact absurd rfl hv
  all_goals simp [applyUpdate, h]

theorem applyUpdate_cost_some {d : StoredDoc} {next : UpdateInput} {v : JSVal}
    (h : next.cost = some v) (hv : v ≠ .vundef) :
    (applyUpdate d next).cost = some (JSVal.vnum (jsNumber v)) := by
  cases v
  case vundef => exact absurd rfl hv
  all_goals simp [applyUpdate, h]

theorem applyUpdate_deleted_some {d : StoredDoc} {next : UpdateInput} {v : JSVal}
    (h : next.deleted = some v) (hv : v ≠ .vundef) :
    (applyUpdate d next).deleted = some (JSVal.vbool (jsBool v)) := by
  cases v
  case vundef => exact absurd rfl hv
  all_goals simp [applyUpdate, h]

theorem updateExpense_ok_getDoc {auth : AuthState} {u : User} {db : DB}
    {id : String} (next : UpdateInput) {d : StoredDoc}
    (hu : auth.currentUser = some u) (hne : u.uid ≠ "")
    (hd : getDoc db u.uid id = some d) :
    (updateExpense auth db id next).result = .ok () ∧
    getDoc (updateExpense auth db id next).db u.uid id = some (applyUpdate d next) ∧
    ∀ uid' id', uid' ≠ u.uid ∨ id' ≠ id →
      getDoc (updateExpense auth db id next).db uid' id' = getDoc db uid' id' := by
  have hr := requireUid_of_some hu hne
  have hany := any_of_getDoc hd
  have hun : updateExpense auth db id next =
      ⟨.ok (), ⟨db.entries.map (fun e =>
          if matchDoc u.uid id e then ⟨e.uid, e.docId, applyUpdate e.data next⟩ else e),
        db.nextId, db.now⟩, [.updateDocW u.uid id]⟩ := by
    simp [updateExpense, hr, hany]
  refine ⟨by rw [hun], ?_, ?_⟩
  · rw [hun]
    exact getDoc_map_self (fun x => applyUpdate x next) db.nextId db.now hd
  · intro uid' id' h
    rw [hun]
    exact getDoc_map_other uid' id' (fun x => applyUpdate x next) db.nextId db.now h

/-- C6: while signed in, `updateExpense` succeeds on an existing record and
applies exactly the fields present in the partial update — `description` and
`date` as given, `cost` through `Number()`, `deleted` through `!!` — while
every absent field, the creation timestamp, and every other record are left
unchanged. -/
theorem updateExpense_partial_update (auth : AuthState) (u : User) (db : DB)
    (id : String) (next : UpdateInput) (d : StoredDoc)
    (hu : auth.currentUser = some u) (hne : u.uid ≠ "")
    (hd : getDoc db u.uid id = some d) :
    (updateExpense auth db id next).result = .ok () ∧
    (∃ d', getDoc (updateExpense auth db id next).db u.uid id = some d' ∧
      (next.description = none → d'.description = d.description) ∧
      (next.date = none → d'.date = d.date) ∧
      (next.cost = none → d'.cost = d.cost) ∧
      (next.deleted = none → d'.deleted = d.deleted) ∧
      d'.createdAt = d.createdAt ∧
      (∀ v, next.description = some v → v ≠ .vundef → d'.description = some v) ∧
      (∀ v, next.date = some v → v ≠ .vundef → d'.date = some v) ∧
      (∀ v, next.cost = some v → v ≠ .vundef →
        d'.cost = some (JSVal.vnum (jsNumber v))) ∧
      (∀ v, next.deleted = some v → v ≠ .vundef →
        d'.deleted = some (JSVal.vbool (jsBool v)))) ∧
    ∀ uid' id', uid' ≠ u.uid ∨ id' ≠ id →
      getDoc (updateExpense auth db id next).db uid' id' = getDoc db uid' id' := by
  obtain ⟨h1, h2, h3⟩ := updateExpense_ok_getDoc next hu hne hd
  refine ⟨h1, ⟨applyUpdate d next, h2, ?_, ?_, ?_, ?_, rfl, ?_, ?_, ?_, ?_⟩, h3⟩
  · intro h
    simp [applyUpdate, h]
  · intro h
    simp [applyUpdate, h]
  · intro h
    simp [applyUpdate, h]
  · intro h
    simp [applyUpdate, h]
  · exact fun v h hv => applyUpdate_description_some h hv
  · exact fun v h hv => applyUpdate_date_some h hv
  · exact fun v h hv => applyUpdate_cost_some h hv
  · exact fun v h hv => applyUpdate_deleted_some h hv

theorem updateExpense_partial_update_witness :
    (updateExpense authU1 dbOne "d1" ⟨none, none, some (JSVal.vnum (JNum.fin 42)), none⟩).result = .ok () ∧
    (∃ d', getDoc (updateExpense authU1 dbOne "d1"
        ⟨none, none, some (JSVal.vnum (JNum.fin 42)), none⟩).db u1.uid "d1" = some d' ∧
      ((⟨none, none, some (JSVal.vnum (JNum.fin 42)), none⟩ : UpdateInput).description = none →
        d'.description = (⟨some (JSVal.vstr "coffee"), some (JSVal.vstr "2024-01-01"),
          some (JSVal.vnum (JNum.fin 4)), some (JSVal.vbool false), some 7⟩ : StoredDoc).description) ∧
      ((⟨none, none, some (JSVal.vnum (JNum.fin 42)), none⟩ : UpdateInput).date = none →
        d'.date = (⟨some (JSVal.vstr "coffee"), some (JSVal.vstr "2024-01-01"),
          some (JSVal.vnum (JNum.fin 4)), some (JSVal.vbool false), some 7⟩ : StoredDoc).date) ∧
      ((⟨none, none, some (JSVal.vnum (JNum.fin 42)), none⟩ : UpdateInput).cost = none →
        d'.cost = (⟨some (JSVal.vstr "coffee"), some (JSVal.vstr "2024-01-01"),
          some (JSVal.vnum (JNum.fin 4)), some (JSVal.vbool false), some 7⟩ : StoredDoc).cost) ∧
      ((⟨none, none, some (JSVal.vnum (JNum.fin 42)), none⟩ : UpdateInput).deleted = none →
        d'.deleted = (⟨some (JSVal.vstr "coffee"), some (JSVal.vstr "2024-01-01"),
          some (JSVal.vnum (JNum.fin 4)), some (JSVal.vbool false), some 7⟩ : StoredDoc).deleted) ∧
      d'.createdAt = (⟨some (JSVal.vstr "coffee"), some (JSVal.vstr "2024-01-01"),
        some (JSVal.vnum (JNum.fin 4)), some (JSVal.vbool false), some 7⟩ : StoredDoc).createdAt ∧
      (∀ v, (⟨none, none, some (JSVal.vnum (JNum.fin 42)), none⟩ : UpdateInput).description = some v →
        v ≠ .vundef → d'.description = some v) ∧
      (∀ v, (⟨none, none, some (JSVal.vnum (JNum.fin 42)), none⟩ : UpdateInput).date = some v →
        v ≠ .vundef → d'.date = some v) ∧
      (∀ v, (⟨none, none, some (JSVal.vnum (JNum.fin 42)), none⟩ : UpdateInput).cost = some v →
        v ≠ .vundef → d'.cost = some (JSVal.vnum (jsNumber v))) ∧
      (∀ v, (⟨none, none, some (JSVal.vnum (JNum.fin 42)), none⟩ : UpdateInput).deleted = some v →
        v ≠ .vundef → d'.deleted = some (JSVal.vbool (jsBool v)))) ∧
    ∀ uid' id', uid' ≠ u1.uid ∨ id' ≠ "d1" →
      getDoc (updateExpense authU1 dbOne "d1"
          ⟨none, none, some (JSVal.vnum (JNum.fin 42)), none⟩).db uid' id' =
        getDoc dbOne uid' id' :=
  updateExpense_partial_update authU1 u1 dbOne "d1"
    ⟨none, none, some (JSVal.vnum (JNum.fin 42)), none⟩
    ⟨some (JSVal.vstr "coffee"), some (JSVal.vstr "2024-01-01"),
      some (JSVal.vnum (JNum.fin 4)), some (JSVal.vbool false), some 7⟩
    rfl (by decide) (by decide)

/-- C10: `updateExpense` enforces none of `addExpense`'s input validation:
while signed in, a partial update carrying an empty description or a
negative cost still succeeds — it never fails with `ValidationError` — and
the offending values are applied to the record as given. -/
theorem updateExpense_skips_validation (auth : AuthState) (u : User) (db : DB)
    (id : String) (next : UpdateInput) (d : StoredDoc)
    (hu : auth.currentUser = some u) (hne : u.uid ≠ "")
    (hd : getDoc db u.uid id = some d)
    (_hbad : next.description = some (JSVal.vstr "") ∨
      ∃ q : Rat, q < 0 ∧ next.cost = some (JSVal.vnum (JNum.fin q))) :
    (updateExpense auth db id next).result = .ok () ∧
    (∀ msg, (updateExpense auth db id next).result ≠ .error (.validation msg)) ∧
    ∃ d', getDoc (updateExpense auth db id next).db u.uid id = some d' ∧
      (next.description = some (JSVal.vstr "") → d'.description = some (JSVal.vstr "")) ∧
      (∀ q : Rat, next.cost = some (JSVal.vnum (JNum.fin q)) →
        d'.cost = some (JSVal.vnum (JNum.fin q))) ∧
      (∀ v, next.deleted = some v → v ≠ .vundef →
        d'.deleted = some (JSVal.vbool (jsBool v))) := by
  obtain ⟨h1, h2, _⟩ := updateExpense_ok_getDoc next hu hne hd
  refine ⟨h1, fun msg hc => by rw [h1] at hc; exact Except.noConfusion hc,
    applyUpdate d next, h2, ?_, ?_, ?_⟩
  · intro h
    exact applyUpdate_description_some h (by decide)
  · intro q h
    exact applyUpdate_cost_some h (fun hc => JSVal.noConfusion hc)
  · exact fun v h hv => applyUpdate_deleted_some h hv

theorem updateExpense_skips_validation_witness :
    (updateExpense authU1 dbOne "d1"
      ⟨some (JSVal.vstr ""), none, some (JSVal.vnum (JNum.fin (-3))), none⟩).result = .ok () ∧
    (∀ msg, (updateExpense authU1 dbOne "d1"
      ⟨some (JSVal.vstr ""), none, some (JSVal.vnum (JNum.fin (-3))), none⟩).result ≠
        .error (.validation msg)) ∧
    ∃ d', getDoc (updateExpense authU1 dbOne "d1"
        ⟨some (JSVal.vstr ""), none, some (JSVal.vnum (JNum.fin (-3))), none⟩).db u1.uid "d1" =
          some d' ∧
      ((⟨some (JSVal.vstr ""), none, some (JSVal.vnum (JNum.fin (-3))), none⟩ : UpdateInput).description =
          some (JSVal.vstr "") → d'.description = some (JSVal.vstr "")) ∧
      (∀ q : Rat, (⟨some (JSVal.vstr ""), none, some (JSVal.vnum (JNum.fin (-3))), none⟩ : UpdateInput).cost =
          some (JSVal.vnum (JNum.fin q)) → d'.cost = some (JSVal.vnum (JNum.fin q))) ∧
      (∀ v, (⟨some (JSVal.vstr ""), none, some (JSVal.vnum (JNum.fin (-3))), none⟩ : UpdateInput).deleted =
          some v → v ≠ .vundef → d'.deleted = some (JSVal.vbool (jsBool v))) :=
  updateExpense_skips_validation authU1 u1 dbOne "d1"
    ⟨some (JSVal.vstr ""), none, some (JSVal.vnum (JNum.fin (-3))), none⟩
    ⟨some (JSVal.vstr "coffee"), some (JSVal.vstr "2024-01-01"),
      some (JSVal.vnum (JNum.fin 4)), some (JSVal.vbool false), some 7⟩
    rfl (by decide) (by decide) (Or.inl rfl)

/-- C9: `addExpense` checks the description before trimming it: a
description consisting of a single space is non-empty, so it passes
validation, and the persisted description is the empty string. -/
theorem addExpense_whitespace_description :
    (" " ≠ "") ∧
    (addExpense authU1 emptyDB ⟨" ", "2024-01-01", .fin 5, false⟩).result = .ok () ∧
    (addExpense authU1 emptyDB ⟨" ", "2024-01-01", .fin 5, false⟩).db.entries =
      [⟨"u1", "0", ⟨some (JSVal.vstr ""), some (JSVal.vstr "2024-01-01"),
        some (JSVal.vnum (JNum.fin 5)), some (JSVal.vbool false), some 0⟩⟩] := by
  refine ⟨by decide, by decide, by decide⟩

end Hw3
